import Mathlib

/-!
Verification of the query/target metadata cache (`QueryCache`) of the
firestore local persistence layer, as specified by
`src/packages/firestore/src/local/query_cache.ts` and the accompanying
natural-language specification.  The repository ships only the
`QueryCache` interface declaration; the backing implementation is
modelled here from the specification's operational descriptions
(spec sections 3, 4.1, 4.2, 4.3, 5, 7) over concrete carrier types:
queries, document keys, snapshot versions, sequence numbers and target
IDs become natural numbers (only equality and ordering are used), and
the four persisted sub-stores (Target Store, Target-Key Index, Snapshot
Watermark + Sequence Clock, Target ID Allocator) become one explicit
state record threaded through every operation.  Fallible operations
return `Except CacheError`.
-/

/-- Modelled from the spec: Target Metadata (QueryData) record — the
repository only declares the `QueryData` type in a file outside the
provided sources.  `query` is the opaque comparable target definition,
`targetId` the unique positive integer handle, `sequenceNumber` the
listen sequence number, `snapshotVersion` the last consistent version,
and `resumeToken` optional opaque bytes. -/
structure QueryData where
  query : Nat
  targetId : Nat
  sequenceNumber : Nat
  snapshotVersion : Nat
  resumeToken : Option (List Nat)
deriving Repr, DecidableEq

/-- Modelled from the spec: error taxonomy of section 7 — precondition
violations (`addQueryData` on an existing target / target ID,
`updateQueryData` / `removeQueryData` on a missing target ID) fail the
enclosing transaction with a descriptive error. -/
inductive CacheError where
  | targetAlreadyExists
  | targetNotFound
deriving Repr, DecidableEq

/-- Modelled from the spec: the persisted state of the cache — the
repository's backing implementation of the `QueryCache` interface is
not among the provided sources.  `targets` is the Target Store,
`index` the Target-Key Index as a list of (target ID, document key)
associations with set semantics, and the three scalars are the Snapshot
Watermark, the Sequence Clock and the Target ID Allocator high-water
mark. -/
structure QueryCacheState where
  targets : List QueryData
  index : List (Nat × Nat)
  lastRemoteSnapshotVersion : Nat
  highestSequenceNumber : Nat
  highestTargetId : Nat
deriving Repr, DecidableEq

/-- Modelled from the spec: the empty cache — no targets, no index
entries, zero/minimum watermark and sequence clock, no target ID ever
allocated. -/
def initialState : QueryCacheState :=
  { targets := [], index := [], lastRemoteSnapshotVersion := 0,
    highestSequenceNumber := 0, highestTargetId := 0 }

/-- Modelled from the spec: `getLastRemoteSnapshotVersion` reads the
watermark; the zero/minimum version if never set. -/
def getLastRemoteSnapshotVersion (s : QueryCacheState) : Nat :=
  s.lastRemoteSnapshotVersion

/-- Modelled from the spec: `getHighestSequenceNumber` reads the
sequence clock; zero if never set. -/
def getHighestSequenceNumber (s : QueryCacheState) : Nat :=
  s.highestSequenceNumber

/-- Modelled from the spec: `getQueryCount` — count of live Target
Store entries. -/
def getQueryCount (s : QueryCacheState) : Nat :=
  s.targets.length

/-- Modelled from the spec: `setTargetsMetadata` unconditionally sets
the sequence clock to the supplied value and, if a snapshot version is
provided, overwrites the watermark ("the cache does not itself clamp" —
monotonicity is a caller obligation, section 4.1). -/
def setTargetsMetadata (s : QueryCacheState) (highestListenSequenceNumber : Nat)
    (lastRemoteSnapshotVersion : Option Nat) : QueryCacheState :=
  { s with
    highestSequenceNumber := highestListenSequenceNumber,
    lastRemoteSnapshotVersion :=
      lastRemoteSnapshotVersion.getD s.lastRemoteSnapshotVersion }

/-- Modelled from the spec: `getQueryData` — point lookup by target
definition, explicit absent result when no record matches. -/
def getQueryData (s : QueryCacheState) (query : Nat) : Option QueryData :=
  s.targets.find? (fun r => r.query == query)

/-- Modelled from the spec: `getQueryDataForTarget` — point lookup by
target ID, explicit absent result when no record matches. -/
def getQueryDataForTarget (s : QueryCacheState) (targetId : Nat) : Option QueryData :=
  s.targets.find? (fun r => r.targetId == targetId)

/-- Modelled from the spec: `addQueryData` fails (precondition
violation) if a record with the same target ID or same target already
exists; otherwise inserts into the Target Store, raises the sequence
clock to at least `queryData.sequenceNumber`, and does not touch the
Target-Key Index. -/
def addQueryData (s : QueryCacheState) (queryData : QueryData) :
    Except CacheError QueryCacheState :=
  if s.targets.any (fun r => r.targetId == queryData.targetId || r.query == queryData.query) then
    .error .targetAlreadyExists
  else
    .ok { s with
      targets := s.targets ++ [queryData],
      highestSequenceNumber := max s.highestSequenceNumber queryData.sequenceNumber }

/-- Modelled from the spec: `updateQueryData` fails if no record exists
for `queryData.targetId`; otherwise replaces the stored record in place
and advances the sequence clock if the new sequence number exceeds the
current clock value. -/
def updateQueryData (s : QueryCacheState) (queryData : QueryData) :
    Except CacheError QueryCacheState :=
  if s.targets.any (fun r => r.targetId == queryData.targetId) then
    .ok { s with
      targets := s.targets.map (fun r => if r.targetId == queryData.targetId then queryData else r),
      highestSequenceNumber := max s.highestSequenceNumber queryData.sequenceNumber }
  else
    .error .targetNotFound

/-- Modelled from the spec: `removeMatchingKeysForTargetId` removes
every index entry for the given target ID regardless of cardinality. -/
def removeMatchingKeysForTargetId (s : QueryCacheState) (targetId : Nat) : QueryCacheState :=
  { s with index := s.index.filter (fun p => p.1 != targetId) }

/-- Modelled from the spec: `removeQueryData` fails if no record exists
for `queryData.targetId`; otherwise removes the Target Store entry and
performs `removeMatchingKeysForTargetId` as an atomic part of the same
operation. -/
def removeQueryData (s : QueryCacheState) (queryData : QueryData) :
    Except CacheError QueryCacheState :=
  if s.targets.any (fun r => r.targetId == queryData.targetId) then
    .ok (removeMatchingKeysForTargetId
      { s with targets := s.targets.filter (fun r => r.targetId != queryData.targetId) }
      queryData.targetId)
  else
    .error .targetNotFound

/-- Modelled from the spec: one idempotent insertion into the
Target-Key Index — adding an already-present association is a no-op,
not an error. -/
def addMatchingKey (index : List (Nat × Nat)) (targetId key : Nat) : List (Nat × Nat) :=
  if (targetId, key) ∈ index then index else index ++ [(targetId, key)]

/-- Modelled from the spec: `addMatchingKeys` adds each key in `keys`
to the index entry for `targetId`, idempotently. -/
def addMatchingKeys (s : QueryCacheState) (keys : List Nat) (targetId : Nat) : QueryCacheState :=
  { s with index := keys.foldl (fun idx k => addMatchingKey idx targetId k) s.index }

/-- Modelled from the spec: `removeMatchingKeys` removes each key in
`keys` from the index entry for `targetId`, idempotently (removing an
absent key is a no-op). -/
def removeMatchingKeys (s : QueryCacheState) (keys : List Nat) (targetId : Nat) : QueryCacheState :=
  { s with index := s.index.filter (fun p => !(p.1 == targetId && keys.contains p.2)) }

/-- Modelled from the spec: `getMatchingKeysForTargetId` returns the
document keys indexed for the given target ID; the empty set if the
target has no indexed keys (never an error for an unknown target
ID). -/
def getMatchingKeysForTargetId (s : QueryCacheState) (targetId : Nat) : List Nat :=
  (s.index.filter (fun p => p.1 == targetId)).map (fun p => p.2)

/-- Modelled from the spec: `allocateTargetId` — the allocator keeps
one persisted integer and each call increments it by the fixed step 2
(first allocation returns 2, the first valid ID per the spec's
scenario) and persists the new value before returning it. -/
def allocateTargetId (s : QueryCacheState) : Nat × QueryCacheState :=
  (s.highestTargetId + 2, { s with highestTargetId := s.highestTargetId + 2 })

/-- Modelled from the spec: a simulated restart — all four sub-stores
(Target Store, Index, watermarks, allocator high-water mark) are
persisted for the lifetime of the local cache, so a restart reloads the
state unchanged. -/
def restart (s : QueryCacheState) : QueryCacheState := s

/-- Modelled from the spec: a failed operation aborts the enclosing
transaction, leaving all four sub-stores unchanged relative to before
the transaction began (sections 5 and 7); this runner yields the
post-transaction state of an `addQueryData` call, successful or not. -/
def addQueryDataOrAbort (s : QueryCacheState) (queryData : QueryData) : QueryCacheState :=
  match addQueryData s queryData with
  | .ok s' => s'
  | .error _ => s

/-- Modelled from the spec: the events of an allocator run — allocator
calls possibly interleaved with simulated restarts and
`removeQueryData` calls (a failed removal aborts and leaves the state
unchanged). -/
inductive AllocEvent where
  | alloc
  | reload
  | removeQd (queryData : QueryData)
deriving Repr, DecidableEq

/-- Modelled from the spec: applying one allocator-run event, yielding
the IDs it returned (none or one) and the successor state. -/
def applyAllocEvent (s : QueryCacheState) : AllocEvent → List Nat × QueryCacheState
  | .alloc => ((allocateTargetId s).1 :: [], (allocateTargetId s).2)
  | .reload => ([], restart s)
  | .removeQd qd =>
    ([], match removeQueryData s qd with
         | .ok s' => s'
         | .error _ => s)

/-- Modelled from the spec: running a sequence of allocator-run events,
collecting every target ID returned along the way. -/
def runAllocEvents (s : QueryCacheState) : List AllocEvent → List Nat × QueryCacheState
  | [] => ([], s)
  | e :: es =>
    ((applyAllocEvent s e).1 ++ (runAllocEvents (applyAllocEvent s e).2 es).1,
     (runAllocEvents (applyAllocEvent s e).2 es).2)

/-- Modelled from the spec: the record-writing operations whose
sequence numbers the Sequence Clock must dominate. -/
inductive WriteOp where
  | add (queryData : QueryData)
  | update (queryData : QueryData)
deriving Repr, DecidableEq

/-- The sequence number carried by a writing operation. -/
def WriteOp.seqNo : WriteOp → Nat
  | .add qd => qd.sequenceNumber
  | .update qd => qd.sequenceNumber

/-- Modelled from the spec: applying one writing operation. -/
def applyWriteOp (s : QueryCacheState) : WriteOp → Except CacheError QueryCacheState
  | .add qd => addQueryData s qd
  | .update qd => updateQueryData s qd

/-- Modelled from the spec: running a sequence of writing operations;
the whole run fails as soon as one operation fails. -/
def runWriteOps (s : QueryCacheState) : List WriteOp → Except CacheError QueryCacheState
  | [] => .ok s
  | op :: ops =>
    match applyWriteOp s op with
    | .ok s' => runWriteOps s' ops
    | .error e => .error e

/-- Modelled from the spec: the cache states reachable from the empty
cache by successful operations used per their caller contract — in
particular `updateQueryData` is only invoked keeping target and target
ID unchanged relative to the stored record (section 4.1). -/
inductive Reachable : QueryCacheState → Prop where
  | init : Reachable initialState
  | setMeta {s} (n : Nat) (v : Option Nat) :
      Reachable s → Reachable (setTargetsMetadata s n v)
  | add {s s'} (qd : QueryData) :
      Reachable s → addQueryData s qd = .ok s' → Reachable s'
  | update {s s'} (qd r : QueryData) :
      Reachable s → r ∈ s.targets → r.targetId = qd.targetId → r.query = qd.query →
      updateQueryData s qd = .ok s' → Reachable s'
  | remove {s s'} (qd : QueryData) :
      Reachable s → removeQueryData s qd = .ok s' → Reachable s'
  | addKeys {s} (ks : List Nat) (tid : Nat) :
      Reachable s → Reachable (addMatchingKeys s ks tid)
  | removeKeys {s} (ks : List Nat) (tid : Nat) :
      Reachable s → Reachable (removeMatchingKeys s ks tid)
  | removeKeysFor {s} (tid : Nat) :
      Reachable s → Reachable (removeMatchingKeysForTargetId s tid)
  | alloc {s} :
      Reachable s → Reachable (allocateTargetId s).2

/-- Well-formedness of the Target Store: no two live records share a
target ID or a target definition (the uniqueness invariant of the data
model, spec section 3). -/
def Wf (s : QueryCacheState) : Prop :=
  s.targets.Pairwise (fun a b => a.targetId ≠ b.targetId ∧ a.query ≠ b.query)

/-- Modelled from the spec: post-transaction state of an
`updateQueryData` call — a failed call aborts the transaction and
leaves all sub-stores unchanged. -/
def updateQueryDataOrAbort (s : QueryCacheState) (queryData : QueryData) : QueryCacheState :=
  match updateQueryData s queryData with
  | .ok s' => s'
  | .error _ => s

/-- Modelled from the spec: post-transaction state of a
`removeQueryData` call — a failed call aborts the transaction and
leaves all sub-stores unchanged. -/
def removeQueryDataOrAbort (s : QueryCacheState) (queryData : QueryData) : QueryCacheState :=
  match removeQueryData s queryData with
  | .ok s' => s'
  | .error _ => s

/-- C2 (counterexample): calling `setTargetsMetadata` with snapshot
version 2 and then with version 1 < 2 succeeds both times and leaves
the observable watermark at 1, not 2 — the modelled cache overwrites
unconditionally and never rejects, so the watermark does regress. -/
theorem setTargetsMetadata_regression_counterexample :
    getLastRemoteSnapshotVersion
      (setTargetsMetadata (setTargetsMetadata initialState 1 (some 2)) 2 (some 1)) = 1 ∧
    getLastRemoteSnapshotVersion
      (setTargetsMetadata (setTargetsMetadata initialState 1 (some 2)) 2 (some 1)) ≠ 2 := by
  decide

/-- C2 (amended): `setTargetsMetadata` never rejects and, when a
snapshot version is supplied, unconditionally overwrites the watermark
— after supplying V1 then V2 the observable watermark is V2, even when
V2 < V1.  Non-regression holds exactly under the caller's obligation
to supply non-decreasing versions (then the final watermark is ≥ V1),
and omitting the version leaves the watermark unchanged. -/
theorem setTargetsMetadata_overwrites_watermark (s : QueryCacheState) (n1 n2 v1 v2 : Nat) :
    getLastRemoteSnapshotVersion
      (setTargetsMetadata (setTargetsMetadata s n1 (some v1)) n2 (some v2)) = v2 ∧
    (v1 ≤ v2 →
      v1 ≤ getLastRemoteSnapshotVersion
        (setTargetsMetadata (setTargetsMetadata s n1 (some v1)) n2 (some v2))) ∧
    getLastRemoteSnapshotVersion (setTargetsMetadata s n1 none) =
      getLastRemoteSnapshotVersion s := by
  exact ⟨rfl, fun h => h, rfl⟩

/-- C2 (witness for the amended theorem): at versions 3 then 4 the
caller obligation 3 ≤ 4 holds and the final watermark is ≥ 3. -/
theorem setTargetsMetadata_overwrites_watermark_witness :
    (3 : Nat) ≤ 4 ∧
    3 ≤ getLastRemoteSnapshotVersion
      (setTargetsMetadata (setTargetsMetadata initialState 1 (some 3)) 2 (some 4)) :=
  ⟨by decide, (setTargetsMetadata_overwrites_watermark initialState 1 2 3 4).2.1 (by decide)⟩

/-- C3: when some cached record already carries the same target ID or
the same target definition, `addQueryData` fails with a precondition
violation and the aborted transaction leaves the Target Store unchanged
— same entries and same `getQueryCount`. -/
theorem addQueryData_duplicate_fails (s : QueryCacheState) (qd : QueryData)
    (h : ∃ r ∈ s.targets, r.targetId = qd.targetId ∨ r.query = qd.query) :
    addQueryData s qd = .error .targetAlreadyExists ∧
    addQueryDataOrAbort s qd = s ∧
    getQueryCount (addQueryDataOrAbort s qd) = getQueryCount s := by
  have hany : s.targets.any
      (fun r => r.targetId == qd.targetId || r.query == qd.query) = true := by
    rcases h with ⟨r, hr, hor⟩
    simp only [List.any_eq_true]
    refine ⟨r, hr, ?_⟩
    rcases hor with h1 | h1 <;> simp [h1]
  have he : addQueryData s qd = .error .targetAlreadyExists := by
    simp [addQueryData, hany]
  exact ⟨he, by simp [addQueryDataOrAbort, he], by simp [addQueryDataOrAbort, he]⟩

/-- C3 (witness): adding a record whose target definition collides
with a cached one fails and leaves the store as it was. -/
theorem addQueryData_duplicate_fails_witness :
    addQueryData
      { targets := [⟨1, 2, 5, 0, none⟩], index := [], lastRemoteSnapshotVersion := 0,
        highestSequenceNumber := 5, highestTargetId := 2 } ⟨1, 4, 6, 0, none⟩ =
      .error .targetAlreadyExists ∧
    addQueryDataOrAbort
      { targets := [⟨1, 2, 5, 0, none⟩], index := [], lastRemoteSnapshotVersion := 0,
        highestSequenceNumber := 5, highestTargetId := 2 } ⟨1, 4, 6, 0, none⟩ =
      { targets := [⟨1, 2, 5, 0, none⟩], index := [], lastRemoteSnapshotVersion := 0,
        highestSequenceNumber := 5, highestTargetId := 2 } ∧
    getQueryCount (addQueryDataOrAbort
      { targets := [⟨1, 2, 5, 0, none⟩], index := [], lastRemoteSnapshotVersion := 0,
        highestSequenceNumber := 5, highestTargetId := 2 } ⟨1, 4, 6, 0, none⟩) =
      getQueryCount
      { targets := [⟨1, 2, 5, 0, none⟩], index := [], lastRemoteSnapshotVersion := 0,
        highestSequenceNumber := 5, highestTargetId := 2 } :=
  addQueryData_duplicate_fails _ _ ⟨⟨1, 2, 5, 0, none⟩, by decide, Or.inr rfl⟩

/-- C8: absence is never an error — when no cached record carries the
looked-up target definition (resp. target ID) the lookup returns the
explicit absent result `none`, and when the index holds no entry for a
target ID, `getMatchingKeysForTargetId` returns the empty set. -/
theorem lookups_absent_not_error (s : QueryCacheState) (q tid : Nat) :
    ((∀ r ∈ s.targets, r.query ≠ q) → getQueryData s q = none) ∧
    ((∀ r ∈ s.targets, r.targetId ≠ tid) → getQueryDataForTarget s tid = none) ∧
    ((∀ p ∈ s.index, p.1 ≠ tid) → getMatchingKeysForTargetId s tid = []) := by
  refine ⟨fun h => ?_, fun h => ?_, fun h => ?_⟩
  · simp only [getQueryData, List.find?_eq_none, beq_iff_eq]
    exact h
  · simp only [getQueryDataForTarget, List.find?_eq_none, beq_iff_eq]
    exact h
  · simp only [getMatchingKeysForTargetId, List.map_eq_nil_iff, List.filter_eq_nil_iff,
      beq_iff_eq]
    exact h

/-- C8 (witness): in a cache holding one record for target 1 with
target ID 2, looking up the unknown target 9 and the unknown target
ID 9 yields `none` and the empty key set. -/
theorem lookups_absent_not_error_witness :
    getQueryData
      { targets := [⟨1, 2, 5, 0, none⟩], index := [(2, 7)], lastRemoteSnapshotVersion := 0,
        highestSequenceNumber := 5, highestTargetId := 2 } 9 = none ∧
    getQueryDataForTarget
      { targets := [⟨1, 2, 5, 0, none⟩], index := [(2, 7)], lastRemoteSnapshotVersion := 0,
        highestSequenceNumber := 5, highestTargetId := 2 } 9 = none ∧
    getMatchingKeysForTargetId
      { targets := [⟨1, 2, 5, 0, none⟩], index := [(2, 7)], lastRemoteSnapshotVersion := 0,
        highestSequenceNumber := 5, highestTargetId := 2 } 9 = [] :=
  ⟨(lookups_absent_not_error _ 9 9).1 (by decide),
   (lookups_absent_not_error _ 9 9).2.1 (by decide),
   (lookups_absent_not_error _ 9 9).2.2 (by decide)⟩

/-- Folding idempotent insertions never drops an existing index
entry. -/
theorem mem_foldl_addMatchingKey (tid : Nat) (ks : List Nat) (idx : List (Nat × Nat))
    (p : Nat × Nat) (hp : p ∈ idx) :
    p ∈ ks.foldl (fun idx k => addMatchingKey idx tid k) idx := by
  induction ks generalizing idx with
  | nil => exact hp
  | cons a ks ih =>
    refine ih (addMatchingKey idx tid a) ?_
    unfold addMatchingKey
    split
    · exact hp
    · exact List.mem_append_left _ hp

/-- After folding insertions for every key of `ks`, each such
association is present in the index. -/
theorem mem_foldl_addMatchingKey_of_mem (tid : Nat) (ks : List Nat) (idx : List (Nat × Nat))
    (k : Nat) (hk : k ∈ ks) :
    (tid, k) ∈ ks.foldl (fun idx k => addMatchingKey idx tid k) idx := by
  induction ks generalizing idx with
  | nil => simp at hk
  | cons a ks ih =>
    rcases List.mem_cons.mp hk with rfl | hk'
    · refine mem_foldl_addMatchingKey tid ks (addMatchingKey idx tid k) _ ?_
      unfold addMatchingKey
      split
      · assumption
      · exact List.mem_append_right _ (by simp)
    · exact ih (addMatchingKey idx tid a) hk'

/-- Folding insertions of already-present associations is the
identity on the index. -/
theorem foldl_addMatchingKey_of_subset (tid : Nat) (ks : List Nat) (idx : List (Nat × Nat))
    (h : ∀ k ∈ ks, (tid, k) ∈ idx) :
    ks.foldl (fun idx k => addMatchingKey idx tid k) idx = idx := by
  induction ks with
  | nil => rfl
  | cons a ks ih =>
    have ha : addMatchingKey idx tid a = idx := by
      unfold addMatchingKey
      simp [h a (by simp)]
    simp only [List.foldl_cons, ha]
    exact ih fun k hk => h k (by simp [hk])

/-- Entries for a different target ID pass through a fold of
insertions for `tid` unchanged. -/
theorem filter_foldl_addMatchingKey (tid tid' : Nat) (h : tid ≠ tid') (ks : List Nat)
    (idx : List (Nat × Nat)) :
    (ks.foldl (fun idx k => addMatchingKey idx tid k) idx).filter (fun p => p.1 == tid') =
      idx.filter (fun p => p.1 == tid') := by
  induction ks generalizing idx with
  | nil => rfl
  | cons a ks ih =>
    simp only [List.foldl_cons]
    rw [ih]
    unfold addMatchingKey
    split
    · rfl
    · simp [List.filter_append, h]

/-- A filter that keeps every entry of a given target ID commutes out
of a filter for that target ID. -/
theorem filter_eq_filter_of_keeps (idx : List (Nat × Nat)) (tid' : Nat)
    (q : Nat × Nat → Bool) (hq : ∀ p, p.1 = tid' → q p = true) :
    (idx.filter q).filter (fun p => p.1 == tid') = idx.filter (fun p => p.1 == tid') := by
  induction idx with
  | nil => rfl
  | cons p idx ih =>
    by_cases hp : p.1 = tid'
    · simp [List.filter_cons, hq p hp, hp, ih]
    · have hne : (p.1 == tid') = false := by simp [hp]
      cases hqp : q p <;> simp [List.filter_cons, hqp, hne, ih]

/-- C7: key mutations are idempotent — `addMatchingKeys` applied twice
yields the same cache state as applied once (adding an already-present
key is a no-op), and `removeMatchingKeys` for keys never indexed for
the target leaves the state unchanged and does not fail. -/
theorem matchingKeys_idempotent (s : QueryCacheState) (ks : List Nat) (tid : Nat) :
    addMatchingKeys (addMatchingKeys s ks tid) ks tid = addMatchingKeys s ks tid ∧
    ((∀ k ∈ ks, (tid, k) ∉ s.index) → removeMatchingKeys s ks tid = s) := by
  constructor
  · have heq : ks.foldl (fun idx k => addMatchingKey idx tid k)
        (ks.foldl (fun idx k => addMatchingKey idx tid k) s.index) =
        ks.foldl (fun idx k => addMatchingKey idx tid k) s.index :=
      foldl_addMatchingKey_of_subset tid ks _
        (fun k hk => mem_foldl_addMatchingKey_of_mem tid ks s.index k hk)
    simp [addMatchingKeys, heq]
  · intro h
    have hfil : s.index.filter (fun p => !(p.1 == tid && ks.contains p.2)) = s.index := by
      rw [List.filter_eq_self]
      intro p hp
      by_cases h1 : p.1 = tid
      · by_cases h2 : p.2 ∈ ks
        · exact absurd (by simpa [← h1] using hp) (h p.2 h2)
        · simp [h2]
      · simp [h1]
    have hdef : removeMatchingKeys s ks tid =
        { s with index := s.index.filter (fun p => !(p.1 == tid && ks.contains p.2)) } := rfl
    rw [hdef, hfil]

/-- C7 (witness): removing key 9, never indexed for target ID 2,
leaves the concrete cache state unchanged. -/
theorem matchingKeys_idempotent_witness :
    removeMatchingKeys
      { targets := [⟨1, 2, 5, 0, none⟩], index := [(2, 7)], lastRemoteSnapshotVersion := 0,
        highestSequenceNumber := 5, highestTargetId := 2 } [9] 2 =
      { targets := [⟨1, 2, 5, 0, none⟩], index := [(2, 7)], lastRemoteSnapshotVersion := 0,
        highestSequenceNumber := 5, highestTargetId := 2 } :=
  (matchingKeys_idempotent _ [9] 2).2 (by decide)

/-- C10: per-target frame — `addMatchingKeys`, `removeMatchingKeys`
and `removeMatchingKeysForTargetId` for target ID `tid` leave the
indexed key set of every other target ID unchanged. -/
theorem matchingKeys_frame (s : QueryCacheState) (ks : List Nat) (tid tid' : Nat)
    (h : tid ≠ tid') :
    getMatchingKeysForTargetId (addMatchingKeys s ks tid) tid' =
      getMatchingKeysForTargetId s tid' ∧
    getMatchingKeysForTargetId (removeMatchingKeys s ks tid) tid' =
      getMatchingKeysForTargetId s tid' ∧
    getMatchingKeysForTargetId (removeMatchingKeysForTargetId s tid) tid' =
      getMatchingKeysForTargetId s tid' := by
  refine ⟨?_, ?_, ?_⟩
  · simp only [getMatchingKeysForTargetId, addMatchingKeys]
    rw [filter_foldl_addMatchingKey tid tid' h ks s.index]
  · simp only [getMatchingKeysForTargetId, removeMatchingKeys]
    rw [filter_eq_filter_of_keeps]
    intro p hp
    have : (p.1 == tid) = false := by simp [hp, Ne.symm h]
    simp [this]
  · simp only [getMatchingKeysForTargetId, removeMatchingKeysForTargetId]
    rw [filter_eq_filter_of_keeps]
    intro p hp
    simp [hp, Ne.symm h]

/-- C10 (witness): mutating the keys of target ID 2 leaves the key set
of target ID 4 unchanged on a concrete state. -/
theorem matchingKeys_frame_witness :
    getMatchingKeysForTargetId
      (addMatchingKeys
        { targets := [], index := [(4, 7)], lastRemoteSnapshotVersion := 0,
          highestSequenceNumber := 0, highestTargetId := 4 } [8] 2) 4 =
      getMatchingKeysForTargetId
        { targets := [], index := [(4, 7)], lastRemoteSnapshotVersion := 0,
          highestSequenceNumber := 0, highestTargetId := 4 } 4 :=
  (matchingKeys_frame _ [8] 2 4 (by decide)).1

/-- `removeQueryData` never touches the allocator's persisted
high-water mark, whether it succeeds or fails. -/
theorem removeQueryData_highestTargetId (s : QueryCacheState) (qd : QueryData) :
    (match removeQueryData s qd with
     | .ok s' => s'
     | .error _ => s).highestTargetId = s.highestTargetId := by
  unfold removeQueryData
  by_cases hc : (s.targets.any fun r => r.targetId == qd.targetId) = true
  · simp [hc, removeMatchingKeysForTargetId]
  · simp [hc]

/-- One allocator-run event: the high-water mark never decreases, and
any ID it returns lies strictly above the previous mark and at most at
the new mark. -/
theorem applyAllocEvent_bounds (s : QueryCacheState) (e : AllocEvent) :
    s.highestTargetId ≤ (applyAllocEvent s e).2.highestTargetId ∧
    ∀ i ∈ (applyAllocEvent s e).1,
      s.highestTargetId < i ∧ i ≤ (applyAllocEvent s e).2.highestTargetId := by
  cases e with
  | alloc => simp [applyAllocEvent, allocateTargetId]
  | reload => simp [applyAllocEvent, restart]
  | removeQd qd =>
    simp only [applyAllocEvent]
    rw [removeQueryData_highestTargetId]
    simp

/-- A whole allocator run: the high-water mark never decreases, every
returned ID lies strictly above the initial mark and at most at the
final mark, and the returned IDs are strictly increasing. -/
theorem runAllocEvents_bounds (es : List AllocEvent) (s : QueryCacheState) :
    s.highestTargetId ≤ (runAllocEvents s es).2.highestTargetId ∧
    (∀ i ∈ (runAllocEvents s es).1,
      s.highestTargetId < i ∧ i ≤ (runAllocEvents s es).2.highestTargetId) ∧
    List.Pairwise (· < ·) (runAllocEvents s es).1 := by
  induction es generalizing s with
  | nil => simp [runAllocEvents]
  | cons e es ih =>
    obtain ⟨h1, h2⟩ := applyAllocEvent_bounds s e
    obtain ⟨ih1, ih2, ih3⟩ := ih (applyAllocEvent s e).2
    refine ⟨le_trans h1 ih1, ?_, ?_⟩
    · intro i hi
      simp only [runAllocEvents, List.mem_append] at hi ⊢
      rcases hi with hi | hi
      · exact ⟨(h2 i hi).1, le_trans (h2 i hi).2 ih1⟩
      · exact ⟨lt_of_le_of_lt h1 (ih2 i hi).1, (ih2 i hi).2⟩
    · simp only [runAllocEvents]
      rw [List.pairwise_append]
      refine ⟨?_, ih3, ?_⟩
      · cases e <;> simp [applyAllocEvent]
      · intro a ha b hb
        exact lt_of_le_of_lt (h2 a ha).2 (ih2 b hb).1

/-- C1: for every sequence of `allocateTargetId` calls — interleaved
with simulated restarts reloading the persisted allocator state, and
with `removeQueryData` calls — the returned target IDs are strictly
increasing in order of return, and no ID is ever returned twice. -/
theorem allocateTargetId_monotone (s : QueryCacheState) (es : List AllocEvent) :
    List.Pairwise (· < ·) (runAllocEvents s es).1 ∧
    (runAllocEvents s es).1.Nodup :=
  ⟨(runAllocEvents_bounds es s).2.2,
   List.Pairwise.imp (fun h => Nat.ne_of_lt h) (runAllocEvents_bounds es s).2.2⟩

/-- One successful writing operation never lowers the Sequence Clock
and raises it to at least the written record's sequence number. -/
theorem applyWriteOp_clock (s s' : QueryCacheState) (op : WriteOp)
    (h : applyWriteOp s op = .ok s') :
    s.highestSequenceNumber ≤ s'.highestSequenceNumber ∧
    op.seqNo ≤ s'.highestSequenceNumber := by
  cases op with
  | add qd =>
    simp only [applyWriteOp, addQueryData] at h
    split at h
    · exact absurd h (by simp)
    · simp only [Except.ok.injEq] at h
      subst h
      simp [WriteOp.seqNo]
  | update qd =>
    simp only [applyWriteOp, updateQueryData] at h
    split at h
    · simp only [Except.ok.injEq] at h
      subst h
      simp [WriteOp.seqNo]
    · exact absurd h (by simp)

/-- A successful run of writing operations never lowers the Sequence
Clock, and the final clock dominates every written sequence number. -/
theorem runWriteOps_clock (ops : List WriteOp) (s s' : QueryCacheState)
    (h : runWriteOps s ops = .ok s') :
    s.highestSequenceNumber ≤ s'.highestSequenceNumber ∧
    ∀ op ∈ ops, op.seqNo ≤ s'.highestSequenceNumber := by
  induction ops generalizing s with
  | nil =>
    simp only [runWriteOps, Except.ok.injEq] at h
    subst h
    simp
  | cons op ops ih =>
    simp only [runWriteOps] at h
    split at h
    · rename_i s1 heq
      obtain ⟨ih1, ih2⟩ := ih s1 h
      obtain ⟨h1, h2⟩ := applyWriteOp_clock s s1 op heq
      refine ⟨le_trans h1 ih1, ?_⟩
      intro o ho
      rcases List.mem_cons.mp ho with rfl | ho'
      · exact le_trans h2 ih1
      · exact ih2 o ho'
    · exact absurd h (by simp)

/-- C5: after any successful sequence of `addQueryData` and
`updateQueryData` calls, `getHighestSequenceNumber` returns a value at
least as large as every sequence number written along the way,
including numbers later superseded. -/
theorem sequence_clock_dominates (s s' : QueryCacheState) (ops : List WriteOp)
    (h : runWriteOps s ops = .ok s') :
    ∀ op ∈ ops, op.seqNo ≤ getHighestSequenceNumber s' :=
  (runWriteOps_clock ops s s' h).2

/-- C5 (witness): adding a record with sequence number 5, then
updating it with the smaller sequence number 3, leaves the clock at 5,
dominating both written numbers. -/
theorem sequence_clock_dominates_witness :
    WriteOp.seqNo (.add ⟨1, 2, 5, 0, none⟩) ≤ getHighestSequenceNumber
      { targets := [⟨1, 2, 3, 0, none⟩], index := [], lastRemoteSnapshotVersion := 0,
        highestSequenceNumber := 5, highestTargetId := 0 } ∧
    WriteOp.seqNo (.update ⟨1, 2, 3, 0, none⟩) ≤ getHighestSequenceNumber
      { targets := [⟨1, 2, 3, 0, none⟩], index := [], lastRemoteSnapshotVersion := 0,
        highestSequenceNumber := 5, highestTargetId := 0 } :=
  ⟨sequence_clock_dominates initialState _
      [.add ⟨1, 2, 5, 0, none⟩, .update ⟨1, 2, 3, 0, none⟩] (by rfl)
      (.add ⟨1, 2, 5, 0, none⟩) (by decide),
   sequence_clock_dominates initialState _
      [.add ⟨1, 2, 5, 0, none⟩, .update ⟨1, 2, 3, 0, none⟩] (by rfl)
      (.update ⟨1, 2, 3, 0, none⟩) (by decide)⟩

/-- C4: `removeQueryData` fails when no record exists for the target
ID; when a record exists it succeeds, removes the Target Store entry —
afterwards no cached record carries the target ID and
`getQueryDataForTarget` returns `none` — and, atomically as part of
the same operation, removes every Target-Key Index entry for that
target ID — afterwards `getMatchingKeysForTargetId` returns the empty
set, no index entry for the removed (now absent) target ID remains,
and the invariant that every index entry refers to a live Target Store
record is preserved. -/
theorem removeQueryData_cascade (s : QueryCacheState) (qd : QueryData) :
    ((∀ r ∈ s.targets, r.targetId ≠ qd.targetId) →
      removeQueryData s qd = .error .targetNotFound) ∧
    ((∃ r ∈ s.targets, r.targetId = qd.targetId) →
      removeQueryData s qd = .ok (removeQueryDataOrAbort s qd) ∧
      (∀ r ∈ (removeQueryDataOrAbort s qd).targets, r.targetId ≠ qd.targetId) ∧
      getQueryDataForTarget (removeQueryDataOrAbort s qd) qd.targetId = none ∧
      getMatchingKeysForTargetId (removeQueryDataOrAbort s qd) qd.targetId = [] ∧
      (∀ p ∈ (removeQueryDataOrAbort s qd).index, p.1 ≠ qd.targetId) ∧
      ((∀ p ∈ s.index, ∃ r ∈ s.targets, r.targetId = p.1) →
        ∀ p ∈ (removeQueryDataOrAbort s qd).index,
          ∃ r ∈ (removeQueryDataOrAbort s qd).targets, r.targetId = p.1)) := by
  constructor
  · intro h
    have hany : s.targets.any (fun r => r.targetId == qd.targetId) = false := by
      rw [List.any_eq_false]
      intro r hr
      simp [h r hr]
    simp [removeQueryData, hany]
  · intro h
    have hany : s.targets.any (fun r => r.targetId == qd.targetId) = true := by
      rw [List.any_eq_true]
      rcases h with ⟨r, hr, he⟩
      exact ⟨r, hr, by simp [he]⟩
    have hok : removeQueryData s qd = .ok (removeMatchingKeysForTargetId
        { s with targets := s.targets.filter (fun r => r.targetId != qd.targetId) }
        qd.targetId) := by
      simp [removeQueryData, hany]
    have habort : removeQueryDataOrAbort s qd = removeMatchingKeysForTargetId
        { s with targets := s.targets.filter (fun r => r.targetId != qd.targetId) }
        qd.targetId := by
      simp [removeQueryDataOrAbort, hok]
    refine ⟨by rw [hok, habort], ?_, ?_, ?_, ?_, ?_⟩
    · rw [habort]
      intro r hr
      rcases List.mem_filter.mp hr with ⟨_, hne⟩
      simpa using hne
    · rw [habort]
      simp only [getQueryDataForTarget]
      rw [List.find?_eq_none]
      intro r hr
      rcases List.mem_filter.mp hr with ⟨_, hne⟩
      simpa using hne
    · rw [habort]
      simp only [getMatchingKeysForTargetId, removeMatchingKeysForTargetId,
        List.map_eq_nil_iff, List.filter_eq_nil_iff]
      intro p hp
      rcases List.mem_filter.mp hp with ⟨_, hne⟩
      simpa using hne
    · rw [habort]
      intro p hp
      rcases List.mem_filter.mp hp with ⟨_, hne⟩
      simpa using hne
    · intro hinv p hp
      rw [habort] at hp ⊢
      rcases List.mem_filter.mp hp with ⟨hp1, hne⟩
      obtain ⟨r, hr, hre⟩ := hinv p hp1
      refine ⟨r, List.mem_filter.mpr ⟨hr, ?_⟩, hre⟩
      have : p.1 ≠ qd.targetId := by simpa using hne
      simp [hre, this]

/-- C4 (witness): removing the record for target ID 2 succeeds on a
concrete state with two indexed keys for it, and afterwards the store
has no record for target ID 2 and its key set is empty. -/
theorem removeQueryData_cascade_witness :
    removeQueryData
      { targets := [⟨1, 2, 5, 0, none⟩], index := [(2, 7), (2, 8), (4, 9)],
        lastRemoteSnapshotVersion := 0, highestSequenceNumber := 5, highestTargetId := 4 }
      ⟨1, 2, 5, 0, none⟩ =
      .ok (removeQueryDataOrAbort
        { targets := [⟨1, 2, 5, 0, none⟩], index := [(2, 7), (2, 8), (4, 9)],
          lastRemoteSnapshotVersion := 0, highestSequenceNumber := 5, highestTargetId := 4 }
        ⟨1, 2, 5, 0, none⟩) ∧
    getQueryDataForTarget
      (removeQueryDataOrAbort
        { targets := [⟨1, 2, 5, 0, none⟩], index := [(2, 7), (2, 8), (4, 9)],
          lastRemoteSnapshotVersion := 0, highestSequenceNumber := 5, highestTargetId := 4 }
        ⟨1, 2, 5, 0, none⟩) 2 = none ∧
    getMatchingKeysForTargetId
      (removeQueryDataOrAbort
        { targets := [⟨1, 2, 5, 0, none⟩], index := [(2, 7), (2, 8), (4, 9)],
          lastRemoteSnapshotVersion := 0, highestSequenceNumber := 5, highestTargetId := 4 }
        ⟨1, 2, 5, 0, none⟩) 2 = [] :=
  ⟨((removeQueryData_cascade _ ⟨1, 2, 5, 0, none⟩).2
      ⟨⟨1, 2, 5, 0, none⟩, by decide, rfl⟩).1,
   ((removeQueryData_cascade _ ⟨1, 2, 5, 0, none⟩).2
      ⟨⟨1, 2, 5, 0, none⟩, by decide, rfl⟩).2.2.1,
   ((removeQueryData_cascade _ ⟨1, 2, 5, 0, none⟩).2
      ⟨⟨1, 2, 5, 0, none⟩, by decide, rfl⟩).2.2.2.1⟩

/-- Replacing, within the Target Store, every record of a given target
ID by a new record carrying that same ID makes the reverse lookup for
that ID return the new record, provided some record with the ID was
stored. -/
theorem find?_map_replace (l : List QueryData) (qd : QueryData)
    (h : ∃ r ∈ l, r.targetId = qd.targetId) :
    (l.map (fun r => if r.targetId == qd.targetId then qd else r)).find?
      (fun r => r.targetId == qd.targetId) = some qd := by
  induction l with
  | nil => simp at h
  | cons a l ih =>
    by_cases ha : a.targetId = qd.targetId
    · have hfa : (if a.targetId == qd.targetId then qd else a) = qd := by simp [ha]
      simp only [List.map_cons, hfa]
      rw [List.find?_cons_of_pos _ (by simp)]
    · have h' : ∃ r ∈ l, r.targetId = qd.targetId := by
        rcases h with ⟨r, hr, he⟩
        rcases List.mem_cons.mp hr with rfl | hr'
        · exact absurd he ha
        · exact ⟨r, hr', he⟩
      have hfa : (if a.targetId == qd.targetId then qd else a) = a := by simp [ha]
      simp only [List.map_cons, hfa]
      rw [List.find?_cons_of_neg _ (by simp [ha])]
      exact ih h'

/-- C6: round trip — adding a not-yet-cached record and looking it up
by target definition returns that record, and updating the record of a
cached target ID and looking it up by target ID returns the updated
record. -/
theorem queryData_roundTrip (s : QueryCacheState) (qd qd' : QueryData) :
    ((∀ r ∈ s.targets, r.targetId ≠ qd.targetId ∧ r.query ≠ qd.query) →
      addQueryData s qd = .ok (addQueryDataOrAbort s qd) ∧
      getQueryData (addQueryDataOrAbort s qd) qd.query = some qd) ∧
    ((∃ r ∈ s.targets, r.targetId = qd'.targetId) →
      updateQueryData s qd' = .ok (updateQueryDataOrAbort s qd') ∧
      getQueryDataForTarget (updateQueryDataOrAbort s qd') qd'.targetId = some qd') := by
  constructor
  · intro h
    have hany : s.targets.any
        (fun r => r.targetId == qd.targetId || r.query == qd.query) = false := by
      rw [List.any_eq_false]
      intro r hr
      simp [(h r hr).1, (h r hr).2]
    have hok : addQueryData s qd = .ok { s with
        targets := s.targets ++ [qd],
        highestSequenceNumber := max s.highestSequenceNumber qd.sequenceNumber } := by
      simp [addQueryData, hany]
    have habort : addQueryDataOrAbort s qd = { s with
        targets := s.targets ++ [qd],
        highestSequenceNumber := max s.highestSequenceNumber qd.sequenceNumber } := by
      simp [addQueryDataOrAbort, hok]
    refine ⟨by rw [hok, habort], ?_⟩
    rw [habort]
    simp only [getQueryData]
    rw [List.find?_append]
    have h1 : s.targets.find? (fun r => r.query == qd.query) = none := by
      rw [List.find?_eq_none]
      intro r hr
      simp [(h r hr).2]
    simp [h1]
  · intro h
    have hany : s.targets.any (fun r => r.targetId == qd'.targetId) = true := by
      rw [List.any_eq_true]
      rcases h with ⟨r, hr, he⟩
      exact ⟨r, hr, by simp [he]⟩
    have hok : updateQueryData s qd' = .ok { s with
        targets := s.targets.map (fun r => if r.targetId == qd'.targetId then qd' else r),
        highestSequenceNumber := max s.highestSequenceNumber qd'.sequenceNumber } := by
      simp [updateQueryData, hany]
    have habort : updateQueryDataOrAbort s qd' = { s with
        targets := s.targets.map (fun r => if r.targetId == qd'.targetId then qd' else r),
        highestSequenceNumber := max s.highestSequenceNumber qd'.sequenceNumber } := by
      simp [updateQueryDataOrAbort, hok]
    refine ⟨by rw [hok, habort], ?_⟩
    rw [habort]
    simp only [getQueryDataForTarget]
    exact find?_map_replace s.targets qd' h

/-- C6 (witness): adding record (query 1, target ID 2) to the empty
cache and looking up query 1 returns it; updating it to a record with
sequence number 9 and looking up target ID 2 returns the update. -/
theorem queryData_roundTrip_witness :
    getQueryData (addQueryDataOrAbort initialState ⟨1, 2, 5, 0, none⟩) 1 =
      some ⟨1, 2, 5, 0, none⟩ ∧
    getQueryDataForTarget
      (updateQueryDataOrAbort
        { targets := [⟨1, 2, 5, 0, none⟩], index := [], lastRemoteSnapshotVersion := 0,
          highestSequenceNumber := 5, highestTargetId := 2 } ⟨1, 2, 9, 0, none⟩) 2 =
      some ⟨1, 2, 9, 0, none⟩ :=
  ⟨((queryData_roundTrip initialState ⟨1, 2, 5, 0, none⟩ ⟨1, 2, 5, 0, none⟩).1
      (by decide)).2,
   ((queryData_roundTrip
      { targets := [⟨1, 2, 5, 0, none⟩], index := [], lastRemoteSnapshotVersion := 0,
        highestSequenceNumber := 5, highestTargetId := 2 }
      ⟨1, 2, 9, 0, none⟩ ⟨1, 2, 9, 0, none⟩).2
      ⟨⟨1, 2, 5, 0, none⟩, by decide, rfl⟩).2⟩

/-- In a well-formed Target Store two records sharing a target ID are
the same record. -/
theorem wf_unique_tid {l : List QueryData}
    (hp : l.Pairwise (fun a b => a.targetId ≠ b.targetId ∧ a.query ≠ b.query))
    {r x : QueryData} (hr : r ∈ l) (hx : x ∈ l) (h : r.targetId = x.targetId) :
    r = x := by
  induction l with
  | nil => simp at hr
  | cons a l ih =>
    rcases List.pairwise_cons.mp hp with ⟨ha, hp'⟩
    rcases List.mem_cons.mp hr with rfl | hr' <;> rcases List.mem_cons.mp hx with rfl | hx'
    · rfl
    · exact absurd h (ha x hx').1
    · exact absurd h.symm (ha r hr').1
    · exact ih hp' hr' hx'

/-- Every reachable cache state has a well-formed Target Store: no two
live records share a target ID or a target definition. -/
theorem reachable_wf (s : QueryCacheState) (h : Reachable s) : Wf s := by
  induction h with
  | init => simp [Wf, initialState]
  | setMeta n v _ ih => simpa [Wf, setTargetsMetadata] using ih
  | @add s0 s1 qd hprev hok ih =>
    simp only [addQueryData] at hok
    split at hok
    · exact absurd hok (by simp)
    · rename_i hany
      simp only [Except.ok.injEq] at hok
      subst hok
      have hall : ∀ x ∈ s0.targets, x.targetId ≠ qd.targetId ∧ x.query ≠ qd.query := by
        intro x hx
        have hfalse := List.any_eq_false.mp (Bool.of_not_eq_true hany) x hx
        constructor
        · intro he
          exact hfalse (by simp [he])
        · intro he
          exact hfalse (by simp [he])
      rw [Wf]
      simp only
      rw [List.pairwise_append]
      refine ⟨ih, by simp, ?_⟩
      intro a ha b hb
      rcases List.mem_singleton.mp hb with rfl
      exact hall a ha
  | @update s0 s1 qd r hprev hr htid hq hok ih =>
    simp only [updateQueryData] at hok
    split at hok
    · rename_i hany
      simp only [Except.ok.injEq] at hok
      subst hok
      have hpt : ∀ x ∈ s0.targets,
          ((if x.targetId == qd.targetId then qd else x).targetId = x.targetId ∧
           (if x.targetId == qd.targetId then qd else x).query = x.query) := by
        intro x hx
        by_cases hxt : x.targetId = qd.targetId
        · have hrx : r = x := wf_unique_tid ih hr hx (by rw [htid, hxt])
          subst hrx
          rw [if_pos (by simp [hxt])]
          exact ⟨htid.symm, hq.symm⟩
        · simp [hxt]
      rw [Wf]
      simp only
      rw [List.pairwise_map]
      refine List.Pairwise.imp_of_mem ?_ ih
      intro a b ha hb hab
      obtain ⟨ha1, ha2⟩ := hpt a ha
      obtain ⟨hb1, hb2⟩ := hpt b hb
      rw [ha1, ha2, hb1, hb2]
      exact hab
    · exact absurd hok (by simp)
  | @remove s0 s1 qd hprev hok ih =>
    simp only [removeQueryData] at hok
    split at hok
    · simp only [Except.ok.injEq] at hok
      subst hok
      rw [Wf]
      simp only [removeMatchingKeysForTargetId]
      exact List.Pairwise.sublist (List.filter_sublist _) ih
    · exact absurd hok (by simp)
  | addKeys ks tid _ ih => simpa [Wf, addMatchingKeys] using ih
  | removeKeys ks tid _ ih => simpa [Wf, removeMatchingKeys] using ih
  | removeKeysFor tid _ ih => simpa [Wf, removeMatchingKeysForTargetId] using ih
  | alloc _ ih => simpa [Wf, allocateTargetId] using ih

/-- In a well-formed Target Store, looking up a stored record's target
definition finds exactly that record. -/
theorem find?_query_of_wf {l : List QueryData}
    (hp : l.Pairwise (fun a b => a.targetId ≠ b.targetId ∧ a.query ≠ b.query))
    {r : QueryData} (hr : r ∈ l) :
    l.find? (fun x => x.query == r.query) = some r := by
  induction l with
  | nil => simp at hr
  | cons a l ih =>
    rcases List.pairwise_cons.mp hp with ⟨ha, hp'⟩
    rcases List.mem_cons.mp hr with rfl | hr'
    · rw [List.find?_cons_of_pos _ (by simp)]
    · rw [List.find?_cons_of_neg _ (by simp [(ha r hr').2])]
      exact ih hp' hr'

/-- In a well-formed Target Store, looking up a stored record's target
ID finds exactly that record. -/
theorem find?_targetId_of_wf {l : List QueryData}
    (hp : l.Pairwise (fun a b => a.targetId ≠ b.targetId ∧ a.query ≠ b.query))
    {r : QueryData} (hr : r ∈ l) :
    l.find? (fun x => x.targetId == r.targetId) = some r := by
  induction l with
  | nil => simp at hr
  | cons a l ih =>
    rcases List.pairwise_cons.mp hp with ⟨ha, hp'⟩
    rcases List.mem_cons.mp hr with rfl | hr'
    · rw [List.find?_cons_of_pos _ (by simp)]
    · rw [List.find?_cons_of_neg _ (by simp [(ha r hr').1])]
      exact ih hp' hr'

/-- C9: in every reachable cache state the two lookup paths agree —
for every cached record, lookup by target definition and lookup by
target ID both return exactly that record, and each lookup returns
`none` precisely when no cached record carries that target definition
(respectively that target ID). -/
theorem lookup_paths_agree (s : QueryCacheState) (h : Reachable s) :
    (∀ r ∈ s.targets,
      getQueryData s r.query = some r ∧ getQueryDataForTarget s r.targetId = some r) ∧
    (∀ q, getQueryData s q = none ↔ ∀ r ∈ s.targets, r.query ≠ q) ∧
    (∀ tid, getQueryDataForTarget s tid = none ↔ ∀ r ∈ s.targets, r.targetId ≠ tid) := by
  have hwf : Wf s := reachable_wf s h
  refine ⟨fun r hr => ⟨find?_query_of_wf hwf hr, find?_targetId_of_wf hwf hr⟩,
    fun q => ?_, fun tid => ?_⟩
  · simp [getQueryData, List.find?_eq_none]
  · simp [getQueryDataForTarget, List.find?_eq_none]

/-- C9 (witness): in the reachable state obtained by adding record
(query 1, target ID 2) to the empty cache, both lookup paths return
that record. -/
theorem lookup_paths_agree_witness :
    getQueryData
      { targets := [⟨1, 2, 5, 0, none⟩], index := [], lastRemoteSnapshotVersion := 0,
        highestSequenceNumber := 5, highestTargetId := 0 } 1 = some ⟨1, 2, 5, 0, none⟩ ∧
    getQueryDataForTarget
      { targets := [⟨1, 2, 5, 0, none⟩], index := [], lastRemoteSnapshotVersion := 0,
        highestSequenceNumber := 5, highestTargetId := 0 } 2 = some ⟨1, 2, 5, 0, none⟩ :=
  ⟨((lookup_paths_agree _
      (Reachable.add ⟨1, 2, 5, 0, none⟩ Reachable.init (by rfl))).1
      ⟨1, 2, 5, 0, none⟩ (by decide)).1,
   ((lookup_paths_agree _
      (Reachable.add ⟨1, 2, 5, 0, none⟩ Reachable.init (by rfl))).1
      ⟨1, 2, 5, 0, none⟩ (by decide)).2⟩
